import Mathlib

/-!
A shallow embedding of the transactional engine of libjio
(`src/libjio.c`, and the recovery engine of `src/check.c`), together
with theorems settling the specification claims.

Files are byte lists (`List Nat`), the journal is a set of record-file
ids plus the lock-file counter, and the outcome of every fallible
syscall or allocation inside an operation is supplied by an explicit
environment record, so that each control-flow path of the C code
corresponds to one branch of the Lean definition.
-/

namespace LibJio

/-- Modulus of C `unsigned int` (32-bit) arithmetic. -/
def U32 : Nat := 4294967296

/-- Modelled from the spec: the `COMMITTED` transaction flag bit
(`J_COMMITED` of the header `libjio.h`, which is not under `src/`).
The code only ever sets and tests this single bit
(`ts->flags | J_COMMITED`, `ts->flags & J_COMMITED`), so the concrete
bit position is immaterial; bit 0 is used here. -/
def J_COMMITED : Nat := 1

/-- Semantics of `pwrite` of the buffer `b` at offset `off` into a file
holding the bytes `f`: bytes before `off` are kept (a hole past EOF
reads back as zeros, per POSIX), `b` overwrites `[off, off + b.length)`,
and the bytes past the written range are kept. -/
def listWrite (f : List Nat) (off : Nat) (b : List Nat) : List Nat :=
  f.take off ++ List.replicate (off - f.length) 0 ++ b ++ f.drop (off + b.length)

/-- Semantics of `ftruncate` to length `n`: shrink the file, or extend
it with zero bytes. -/
def ftrunc (f : List Nat) (n : Nat) : List Nat :=
  f.take n ++ List.replicate (n - f.length) 0

/-- State of one journaled file and its journal directory.
`records` is the set of ids whose record file currently exists in the
journal directory, `counter` is the u32 stored at offset 0 of the
`lock` file, `freed` is a ghost trace of the ids passed to `free_tid`,
`jlock` tracks the whole-file lock on the lock file, `dataLock` the
byte-range lock taken on the data file by the transaction in flight,
and `nolock` mirrors `fs->flags & J_NOLOCK`. -/
structure JState where
  dataFile : List Nat
  filePos : Nat
  counter : Nat
  records : List Nat
  freed : List Nat
  jlock : Bool
  dataLock : Bool
  nolock : Bool
  deriving DecidableEq

/-- The `struct jtrans` of `libjio.c` (single-operation transactions).
`buf`/`len`/`offset` describe the write, `hasUdata`/`ulen` the optional
user payload (whose bytes never reach the data file), and
`pdata`/`plen` the captured undo payload. -/
structure Jtrans where
  id : Nat
  flags : Nat
  buf : List Nat
  len : Nat
  offset : Nat
  hasUdata : Bool
  ulen : Nat
  pdata : List Nat
  plen : Nat
  deriving DecidableEq

/-- `jtrans_init`: the empty transaction (`libjio.c:234`). -/
def jtrans_init : Jtrans :=
  { id := 0, flags := 0, buf := [], len := 0, offset := 0,
    hasUdata := false, ulen := 0, pdata := [], plen := 0 }

/-- Outcome of every fallible allocation and syscall inside
`jtrans_commit`, `get_tid` and `free_tid`.  A `true` field means the
corresponding call succeeds; `applyPartial` is the number of bytes the
apply `spwrite` manages to put down before failing when
`applyOk = false`. -/
structure CommitEnv where
  mallocName : Bool
  tidReadOk : Bool
  tidWriteOk : Bool
  jtfileOk : Bool
  openOk : Bool
  mallocBufInit : Bool
  headWriteOk : Bool
  udataWriteOk : Bool
  mallocPdata : Bool
  dataReadOk : Bool
  pdataWriteOk : Bool
  bufWriteOk : Bool
  applyOk : Bool
  applyPartial : Nat
  freeReadOk : Bool
  freeWriteOk : Bool
  deriving DecidableEq

/-- The environment in which every allocation and syscall succeeds. -/
def cleanEnv : CommitEnv :=
  { mallocName := true, tidReadOk := true, tidWriteOk := true,
    jtfileOk := true, openOk := true, mallocBufInit := true,
    headWriteOk := true, udataWriteOk := true, mallocPdata := true,
    dataReadOk := true, pdataWriteOk := true, bufWriteOk := true,
    applyOk := true, applyPartial := 0, freeReadOk := true,
    freeWriteOk := true }

/-- `get_tid` (`libjio.c:152`): under the whole-file lock on the lock
file, read the current u32 counter, increment it with wrap-around
(a wrapped `0` becomes `1`), write it back and return it; `0` is
returned on a failed read or write, and the lock is released on every
path. -/
def get_tid (env : CommitEnv) (st : JState) : Nat × JState :=
  let st0 := { st with jlock := true }
  if env.tidReadOk = false then (0, { st0 with jlock := false })
  else
    let rv := (st.counter + 1) % U32
    let rv := if rv = 0 then 1 else rv
    if env.tidWriteOk = false then (0, { st0 with jlock := false })
    else (rv, { st0 with counter := rv, jlock := false })

/-- The downward scan of `free_tid`: starting at `i` and probing
record filenames down to `1`, return the first (largest) id whose
record file exists, or `0` when the loop exhausts (in the C code the
loop variable `i` is `0` at that point, and it is `i` that is written
back). -/
def scanDown (recs : List Nat) : Nat → Nat
  | 0 => 0
  | i + 1 => if (i + 1) ∈ recs then i + 1 else scanDown recs i

/-- `free_tid` (`libjio.c:185`): under the lock-file lock, read the
current counter `curid`; when `tid < curid` do nothing; otherwise scan
downward from `curid - 1` (u32 arithmetic, so `curid = 0` starts the
scan at `4294967295`) for the largest id whose record file exists and
write the loop variable -- the found id, or `0` when none exists -- as
the new counter.  The ghost trace `freed` records the call. -/
def free_tid (env : CommitEnv) (tid : Nat) (st : JState) : JState :=
  let st0 := { st with freed := st.freed ++ [tid], jlock := true }
  if env.freeReadOk = false then { st0 with jlock := false }
  else if tid < st.counter then { st0 with jlock := false }
  else
    let i := scanDown st.records ((st.counter + U32 - 1) % U32)
    if env.freeWriteOk = false then { st0 with jlock := false }
    else { st0 with counter := i, jlock := false }

/-- Record-file creation by `open(name, O_RDWR|O_CREAT|O_TRUNC)`:
the id is added to the set of existing record files. -/
def insertRec (id : Nat) (recs : List Nat) : List Nat :=
  if id ∈ recs then recs else id :: recs

/-- The common `exit:` tail of `jtrans_commit` (`libjio.c:381`): close
the record fd, release the data-file range lock unless `J_NOLOCK`, and
return `ts->len` when the `J_COMMITED` bit is set, `-1` otherwise. -/
def commitExit (ts : Jtrans) (st : JState) : Int × Jtrans × JState :=
  let st1 := if st.nolock then st else { st with dataLock := false }
  if ts.flags.land J_COMMITED ≠ 0 then ((ts.len : Int), ts, st1)
  else (-1, ts, st1)

/-- Reclaim phase of `jtrans_commit` (`libjio.c:373`-`379`), reached
only after the apply write fully completed: the `J_COMMITED` flag has
been set by the caller, `free_tid` runs (while the record file still
exists, so the downward scan can probe it -- though it never probes the
freed id itself), then the record is unlinked, and the `exit:` tail
runs. -/
def commitReclaim (env : CommitEnv) (ts : Jtrans) (st : JState) :
    Int × Jtrans × JState :=
  let st6 := free_tid env ts.id st
  commitExit ts { st6 with records := st6.records.erase ts.id }

/-- Record-body writes and apply phase of `jtrans_commit`
(`libjio.c:350`-`379`): write the undo payload and the new data into
the record file (a `goto exit` on a short write), `fsync`, then apply
the new data to the data file with `spwrite`; if the apply does not
fully complete (`rv != ts->len`), `goto exit` with only
`min applyPartial len` bytes having reached the file; otherwise set
`J_COMMITED` and reclaim.  An `spwrite` of `0` bytes cannot fail,
hence the `len ≠ 0` guards. -/
def commitWrites (env : CommitEnv) (ts : Jtrans) (st : JState) :
    Int × Jtrans × JState :=
  if ts.len ≠ 0 ∧ env.pdataWriteOk = false then commitExit ts st
  else if ts.len ≠ 0 ∧ env.bufWriteOk = false then commitExit ts st
  else if ts.len ≠ 0 ∧ env.applyOk = false then
    commitExit ts
      { st with dataFile :=
          listWrite st.dataFile ts.offset (ts.buf.take (min env.applyPartial ts.len)) }
  else
    commitReclaim env { ts with flags := ts.flags.lor J_COMMITED }
      { st with dataFile := listWrite st.dataFile ts.offset (ts.buf.take ts.len) }

/-- Undo-capture phase of `jtrans_commit` (`libjio.c:336`-`348`):
`spread` the current contents at `[offset, offset+len)` into `pdata`
(an error is a `goto exit`; a read of `0` bytes cannot fail); `plen`
becomes the number of bytes actually read, and when the read came short
the data file is extended to `offset + len` with `ftruncate`. -/
def commitCapture (env : CommitEnv) (ts : Jtrans) (st : JState) :
    Int × Jtrans × JState :=
  if ts.len ≠ 0 ∧ env.dataReadOk = false then commitExit ts st
  else
    commitWrites env
      { ts with pdata := (st.dataFile.drop ts.offset).take ts.len,
                plen := ((st.dataFile.drop ts.offset).take ts.len).length }
      (if ((st.dataFile.drop ts.offset).take ts.len).length < ts.len then
        { st with dataFile := ftrunc st.dataFile (ts.offset + ts.len) }
      else st)

/-- Record-building phase of `jtrans_commit` (`libjio.c:296`-`336`),
entered with the record file created and locked and the data range
locked: write the fixed header, the optional user payload, allocate
`pdata` and set `plen := len` (exactly as the C code does before the
capture read), then capture.  Every failure here is a `goto exit`. -/
def commitWork (env : CommitEnv) (ts : Jtrans) (st : JState) :
    Int × Jtrans × JState :=
  if env.headWriteOk = false then commitExit ts st
  else if ts.hasUdata = true ∧ ts.ulen ≠ 0 ∧ env.udataWriteOk = false then
    commitExit ts st
  else if env.mallocPdata = false then commitExit ts st
  else commitCapture env { ts with plen := ts.len } st

/-- `jtrans_commit` (`libjio.c:263`): allocate a name and an id, create
and lock the record file (adding it to `records`), range-lock the data
file unless `J_NOLOCK`, then run the record-building, capture, write,
apply and reclaim phases.  Failures up to and including the record
buffer allocation `return -1` directly -- without closing the record
fd, unlinking the record or releasing the locks; all later failures
jump to the `exit:` tail (`commitExit`).  Record-file byte contents are
not tracked (no claim depends on them), only the existence of the
record file is. -/
def jtrans_commit (env : CommitEnv) (ts : Jtrans) (st : JState) :
    Int × Jtrans × JState :=
  if env.mallocName = false then (-1, ts, st)
  else if (get_tid env st).1 = 0 then (-1, ts, (get_tid env st).2)
  else if env.jtfileOk = false then (-1, ts, (get_tid env st).2)
  else if env.openOk = false then (-1, ts, (get_tid env st).2)
  else
    let id := (get_tid env st).1
    let st1 := (get_tid env st).2
    let st2 := { st1 with records := insertRec id st1.records }
    let st3 := if st2.nolock then st2 else { st2 with dataLock := true }
    if env.mallocBufInit = false then (-1, { ts with id := id }, st3)
    else commitWork env { ts with id := id } st3

/-- `jtrans_rollback` (`libjio.c:396`): build the reverse transaction
(`buf := pdata`, `len := plen`, flags and offset copied from the
original, committed transaction), truncate the data file back to
`offset + plen` when the original extended it (`plen < len`), and
commit the reverse transaction. -/
def jtrans_rollback (env : CommitEnv) (ts : Jtrans) (st : JState) :
    Int × Jtrans × JState :=
  if env.mallocName = false then (-1, ts, st)
  else
    let newts :=
      { jtrans_init with
        flags := ts.flags, offset := ts.offset,
        buf := ts.pdata, len := ts.plen,
        pdata := ts.buf, plen := ts.len,
        hasUdata := ts.hasUdata, ulen := ts.ulen }
    let st1 :=
      if ts.plen < ts.len then
        { st with dataFile := ftrunc st.dataFile (ts.offset + ts.plen) }
      else st
    jtrans_commit env newts st1

/-- `jwrite` (`libjio.c:541`): commit a single-operation transaction at
the current file position and, when the commit returned `rv >= 0`,
advance the file pointer by `count`. -/
def jwrite (env : CommitEnv) (buf : List Nat) (count : Nat) (st : JState) :
    Int × JState :=
  let ts := { jtrans_init with offset := st.filePos, buf := buf, len := count }
  let r := jtrans_commit env ts st
  if 0 ≤ r.1 then (r.1, { r.2.2 with filePos := st.filePos + count })
  else (r.1, r.2.2)

/-- `jwritev` (`libjio.c:588`): flatten the iovec into one buffer of
`sum` bytes (the `malloc(sum)` of that buffer is modelled by the
`mallocName` environment field, the first allocation of the call),
commit it at the current file position and, on success, advance the
file pointer by `count` -- the NUMBER OF IOVECS, exactly as
`lseek(fs->fd, count, SEEK_CUR)` does in the source. -/
def jwritev (env : CommitEnv) (vecs : List (List Nat)) (st : JState) :
    Int × JState :=
  let sum := (vecs.map List.length).sum
  if env.mallocName = false then (-1, st)
  else
    let buf := vecs.foldl (fun acc v => acc ++ v) []
    let ts := { jtrans_init with offset := st.filePos, buf := buf, len := sum }
    let r := jtrans_commit env ts st
    if 0 ≤ r.1 then (r.1, { r.2.2 with filePos := st.filePos + vecs.length })
    else (r.1, r.2.2)

/-!
The recovery engine of `src/check.c`: the multi-operation,
checksummed record format, its parser `fill_trans`, and the `jfsck`
replay loop.
-/
namespace Check

/-- Modelled from the spec: `J_DISKHEADSIZE` of the missing header
`common.h` -- the fixed record header `id, flags, numops`, three
little-endian u32 fields (spec §4.4), matching the three `p += 4`
advances of `fill_trans`. -/
def J_DISKHEADSIZE : Nat := 12

/-- Modelled from the spec: `J_DISKOPHEADSIZE` of the missing header
`common.h` -- the per-operation header `len (u32), plen (u32),
offset (u64)` (spec §4.4), matching the `p += 4; p += 4; p += 8`
advances of `fill_trans`. -/
def J_DISKOPHEADSIZE : Nat := 16

/-- Little-endian u32 read at byte index `p` of `l` (out-of-range bytes
read as `0`; `fill_trans` only reads in bounds). -/
def readU32 (l : List Nat) (p : Nat) : Nat :=
  l.getD p 0 + 256 * l.getD (p + 1) 0 + 65536 * l.getD (p + 2) 0 +
    16777216 * l.getD (p + 3) 0

/-- One parsed operation of a record (`struct joper`): declared data
length `len`, undo length `plen`, target `offset`, and `start`, the
byte index inside the mapped record where the operation's `newdata`
begins (the model of the `op->buf` pointer into the map). -/
structure Joper where
  len : Nat
  plen : Nat
  offset : Nat
  start : Nat
  deriving DecidableEq

/-- Little-endian u64 read at byte index `p` of `l`. -/
def readU64 (l : List Nat) (p : Nat) : Nat :=
  readU32 l p + 4294967296 * readU32 l (p + 4)

/-- The operation-parsing loop of `fill_trans` (`check.c:46`): at byte
index `p`, parse `n` more operations, failing when an operation header
or its declared `len` bytes of data would run past the end of the map. -/
def fillOps (map : List Nat) : Nat → Nat → Option (List Joper)
  | _, 0 => some []
  | p, n + 1 =>
    if p + J_DISKOPHEADSIZE > map.length then none
    else
      let oplen := readU32 map p
      let opplen := readU32 map (p + 4)
      let opoffset := readU64 map (p + 8)
      let q := p + J_DISKOPHEADSIZE
      if q + oplen > map.length then none
      else
        match fillOps map (q + oplen) n with
        | none => none
        | some ops => some (⟨oplen, opplen, opoffset, q⟩ :: ops)

/-- `fill_trans` (`check.c:26`): reject maps shorter than the fixed
header, read `id`, `flags` and `numops`, then parse `numops`
operations; returns the parsed transaction or `none` on any bounds
failure (the C function returns `0` and frees the partial list). -/
def fill_trans (map : List Nat) : Option (Nat × Nat × List Joper) :=
  if map.length < J_DISKHEADSIZE then none
  else
    let id := readU32 map 0
    let flags := readU32 map 4
    let numops := readU32 map 8
    match fillOps map J_DISKHEADSIZE numops with
    | none => none
    | some ops => some (id, flags, ops)

/-- What `jfsck` finds for one record id: the record file is missing
(`open` fails, counted `invalid`), locked by a live writer (`plockf`
try-lock fails, counted `in_progress`), or present with the given
bytes. -/
inductive RecEntry where
  | missing : RecEntry
  | locked : RecEntry
  | present : List Nat → RecEntry
  deriving DecidableEq

/-- The per-record outcome, named after the `jfsck_result` counter the
record increments. -/
inductive Outcome where
  | invalid : Outcome
  | in_progress : Outcome
  | broken : Outcome
  | corrupt : Outcome
  | apply_error : Outcome
  | reapplied : Outcome
  deriving DecidableEq

/-- The counters of `struct jfsck_result` used by `jfsck`. -/
structure JfsckResult where
  total : Nat
  invalid : Nat
  in_progress : Nat
  broken : Nat
  corrupt : Nat
  apply_error : Nat
  reapplied : Nat
  deriving DecidableEq

/-- Classification of one record by the body of the `jfsck` loop
(`check.c:215`): missing file, in-progress lock, parse failure
(`broken`, which also covers the `mmap` failure of an empty file),
trailing-checksum mismatch (`corrupt`), then replay, whose success is
given by `applyOk`.  `csum` is the checksum function `checksum_map`
(`common.c`, not under `src/`), kept as a parameter: the claim only
depends on whether the stored and computed values agree. -/
def classify (csum : List Nat → Nat) (applyOk : Bool) : RecEntry → Outcome
  | .missing => .invalid
  | .locked => .in_progress
  | .present bytes =>
    match fill_trans bytes with
    | none => .broken
    | some _ =>
      if csum (bytes.take (bytes.length - 4)) ≠ readU32 bytes (bytes.length - 4)
      then .corrupt
      else if applyOk then .reapplied else .apply_error

/-- Modelled from the spec: the replay of one parsed record by the
multi-operation commit engine (`trans.c`, not under `src/`): per spec
§4.6 step 7, each operation's `newdata` bytes are written to the data
file at the operation's offset, in order. -/
def applyTrans (df : List Nat) (map : List Nat) (ops : List Joper) : List Nat :=
  ops.foldl (fun f op => listWrite f op.offset ((map.drop op.start).take op.len)) df

/-- Data-file effect of replaying one record entry (only a parsed,
checksummed record that the commit engine accepts changes the file). -/
def applyRec (df : List Nat) : RecEntry → List Nat
  | .present bytes =>
    match fill_trans bytes with
    | some r => applyTrans df bytes r.2.2
    | none => df
  | _ => df

/-- State threaded through the `jfsck` loop: the counters, the data
file, and a ghost list of the ids whose records were applied. -/
structure FsckState where
  res : JfsckResult
  dataFile : List Nat
  applied : List Nat
  deriving DecidableEq

/-- Add one record's outcome to the counters (`res-><counter>++`). -/
def bump (o : Outcome) (r : JfsckResult) : JfsckResult :=
  match o with
  | .invalid => { r with invalid := r.invalid + 1 }
  | .in_progress => { r with in_progress := r.in_progress + 1 }
  | .broken => { r with broken := r.broken + 1 }
  | .corrupt => { r with corrupt := r.corrupt + 1 }
  | .apply_error => { r with apply_error := r.apply_error + 1 }
  | .reapplied => { r with reapplied := r.reapplied + 1 }

/-- One iteration of the `jfsck` loop for record id `i`: classify the
record, bump its counter, bump `total` (the `loop:` tail runs for every
id), and apply the record to the data file when it was replayed. -/
def jfsckStep (csum : List Nat → Nat) (applyOk : Nat → Bool)
    (recs : Nat → RecEntry) (s : FsckState) (i : Nat) : FsckState :=
  let o := classify csum (applyOk i) (recs i)
  { res := { bump o s.res with total := s.res.total + 1 },
    dataFile := if o = .reapplied then applyRec s.dataFile (recs i) else s.dataFile,
    applied := if o = .reapplied then s.applied ++ [i] else s.applied }

/-- The replay loop of `jfsck` (`check.c:214`-`299`): for every id from
`1` to `maxtid`, process the record found for that id.  The directory
scan that computes `maxtid`, the lock-file rewrite and the `exit:`
resource cleanup are abstracted into the `maxtid` and `recs` arguments;
allocations inside the loop are taken to succeed (a failed `malloc`
aborts the whole run with `J_ENOMEM`). -/
def jfsck (csum : List Nat → Nat) (applyOk : Nat → Bool)
    (recs : Nat → RecEntry) (maxtid : Nat) (df0 : List Nat) : FsckState :=
  (List.range' 1 maxtid).foldl (jfsckStep csum applyOk recs)
    { res := { total := 0, invalid := 0, in_progress := 0, broken := 0,
               corrupt := 0, apply_error := 0, reapplied := 0 },
      dataFile := df0, applied := [] }

end Check

/-- The failures of `jtrans_commit` that strike before the durability
`fsync` of the record file (`libjio.c:366`): allocation failures, id
allocation failure, record-file open failure, or a short write while
building the record.  Writes and reads of `0` bytes cannot fail, hence
the `len ≠ 0` / `ulen ≠ 0` guards. -/
def preFsyncFail (env : CommitEnv) (ts : Jtrans) : Prop :=
  env.mallocName = false ∨ env.tidReadOk = false ∨ env.tidWriteOk = false ∨
  env.jtfileOk = false ∨ env.openOk = false ∨ env.mallocBufInit = false ∨
  env.headWriteOk = false ∨
  (ts.hasUdata = true ∧ ts.ulen ≠ 0 ∧ env.udataWriteOk = false) ∨
  env.mallocPdata = false ∨
  (ts.len ≠ 0 ∧ env.dataReadOk = false) ∨
  (ts.len ≠ 0 ∧ env.pdataWriteOk = false) ∨
  (ts.len ≠ 0 ∧ env.bufWriteOk = false)

instance (env : CommitEnv) (ts : Jtrans) : Decidable (preFsyncFail env ts) := by
  unfold preFsyncFail
  infer_instance

/-!  Concrete fixtures used by witnesses and counterexamples. -/

/-- A freshly opened journaled file holding the bytes `"AAAA"`, with
the lock-file counter at its initial value `1` and no record files. -/
def stA : JState :=
  { dataFile := [65, 65, 65, 65], filePos := 0, counter := 1, records := [],
    freed := [], jlock := false, dataLock := false, nolock := false }

/-- A transaction writing `"BB"` at offset 1. -/
def tsBB : Jtrans := { jtrans_init with buf := [66, 66], len := 2, offset := 1 }

/-- A transaction writing one byte at offset 10, past the end of
`stA`'s 4-byte data file. -/
def tsFar : Jtrans := { jtrans_init with buf := [66], len := 1, offset := 10 }

/-- A journal state whose counter is `5` and where only the record
file of the in-flight transaction `5` exists. -/
def stC7 : JState := { stA with counter := 5, records := [5] }

/-- A transaction entering `jtrans_commit` with `J_COMMITED` already
set, exactly as the reverse transaction built by `jtrans_rollback`
does (`newts.flags = ts->flags` at `libjio.c:409`). -/
def tsPre : Jtrans :=
  { jtrans_init with flags := J_COMMITED, buf := [66], len := 1, offset := 0 }

/-- The environment in which everything succeeds except the apply
write to the data file, which fails without writing anything. -/
def applyFailEnv : CommitEnv := { cleanEnv with applyOk := false }

/-- The environment in which everything succeeds except the record
header write, which fails (a `goto exit` before the fsync). -/
def headFailEnv : CommitEnv := { cleanEnv with headWriteOk := false }

/-- The environment in which everything succeeds except the write of
the new data into the record file (a `goto exit` before the fsync). -/
def bufFailEnv : CommitEnv := { cleanEnv with bufWriteOk := false }

/-!  Helper lemmas about the state-threading of `get_tid` and
`free_tid`, and about the flag and list operations of the engine. -/

theorem get_tid_dataFile (env : CommitEnv) (st : JState) :
    (get_tid env st).2.dataFile = st.dataFile := by
  unfold get_tid; split_ifs <;> rfl

theorem get_tid_records (env : CommitEnv) (st : JState) :
    (get_tid env st).2.records = st.records := by
  unfold get_tid; split_ifs <;> rfl

theorem get_tid_freed (env : CommitEnv) (st : JState) :
    (get_tid env st).2.freed = st.freed := by
  unfold get_tid; split_ifs <;> rfl

theorem get_tid_filePos (env : CommitEnv) (st : JState) :
    (get_tid env st).2.filePos = st.filePos := by
  unfold get_tid; split_ifs <;> rfl

theorem get_tid_nolock (env : CommitEnv) (st : JState) :
    (get_tid env st).2.nolock = st.nolock := by
  unfold get_tid; split_ifs <;> rfl

theorem get_tid_dataLock (env : CommitEnv) (st : JState) :
    (get_tid env st).2.dataLock = st.dataLock := by
  unfold get_tid; split_ifs <;> rfl

theorem get_tid_fst_of_ok (env : CommitEnv) (st : JState)
    (h1 : env.tidReadOk = true) (h2 : env.tidWriteOk = true) :
    (get_tid env st).1 =
      if (st.counter + 1) % U32 = 0 then 1 else (st.counter + 1) % U32 := by
  unfold get_tid
  simp [h1, h2]

theorem get_tid_fst_ne_zero (env : CommitEnv) (st : JState)
    (h1 : env.tidReadOk = true) (h2 : env.tidWriteOk = true) :
    (get_tid env st).1 ≠ 0 := by
  rw [get_tid_fst_of_ok env st h1 h2]
  split_ifs with h
  · simp
  · exact h

theorem get_tid_fst_zero (env : CommitEnv) (st : JState)
    (h : env.tidReadOk = false ∨ env.tidWriteOk = false) :
    (get_tid env st).1 = 0 := by
  unfold get_tid
  rcases h with h | h
  · simp [h]
  · by_cases hr : env.tidReadOk = false
    · simp [hr]
    · simp [hr, h]

theorem free_tid_dataFile (env : CommitEnv) (tid : Nat) (st : JState) :
    (free_tid env tid st).dataFile = st.dataFile := by
  unfold free_tid; split_ifs <;> rfl

theorem free_tid_records (env : CommitEnv) (tid : Nat) (st : JState) :
    (free_tid env tid st).records = st.records := by
  unfold free_tid; split_ifs <;> rfl

theorem free_tid_freed (env : CommitEnv) (tid : Nat) (st : JState) :
    (free_tid env tid st).freed = st.freed ++ [tid] := by
  unfold free_tid; split_ifs <;> rfl

theorem free_tid_filePos (env : CommitEnv) (tid : Nat) (st : JState) :
    (free_tid env tid st).filePos = st.filePos := by
  unfold free_tid; split_ifs <;> rfl

theorem free_tid_nolock (env : CommitEnv) (tid : Nat) (st : JState) :
    (free_tid env tid st).nolock = st.nolock := by
  unfold free_tid; split_ifs <;> rfl

theorem free_tid_dataLock (env : CommitEnv) (tid : Nat) (st : JState) :
    (free_tid env tid st).dataLock = st.dataLock := by
  unfold free_tid; split_ifs <;> rfl

theorem lor_one_land_one (x : Nat) : (x.lor 1).land 1 = 1 := by
  have h : (x ||| 1).testBit 0 = true := by
    rw [Nat.testBit_or]
    simp [Nat.testBit_zero]
  rw [Nat.testBit_zero] at h
  have h2 : (x ||| 1) % 2 = 1 := of_decide_eq_true h
  calc (x.lor 1).land 1 = (x ||| 1) &&& 1 := rfl
    _ = (x ||| 1) % 2 := Nat.and_one_is_mod _
    _ = 1 := h2

/-- The downward scan of `free_tid` returns either `0`, and then no id
in `[1, n]` has a record file, or the largest id in `[1, n]` whose
record file exists. -/
theorem scanDown_spec (recs : List Nat) (n : Nat) :
    (scanDown recs n = 0 ∧ ∀ j ∈ recs, ¬(1 ≤ j ∧ j ≤ n)) ∨
      (scanDown recs n ∈ recs ∧ 1 ≤ scanDown recs n ∧ scanDown recs n ≤ n ∧
        ∀ j ∈ recs, j ≤ n → j ≤ scanDown recs n) := by
  induction n with
  | zero => exact Or.inl ⟨rfl, fun j _ h2 => by omega⟩
  | succ m ih =>
    simp only [scanDown]
    by_cases hm : (m + 1) ∈ recs
    · rw [if_pos hm]
      exact Or.inr ⟨hm, by omega, Nat.le_refl _, fun j hj hle => hle⟩
    · rw [if_neg hm]
      rcases ih with ⟨h0, hall⟩ | ⟨hmem, h1, h2, hmax⟩
      · refine Or.inl ⟨h0, fun j hj hj2 => ?_⟩
        have hne : j ≠ m + 1 := fun he => hm (he ▸ hj)
        exact hall j hj ⟨hj2.1, by omega⟩
      · refine Or.inr ⟨hmem, h1, by omega, fun j hj hle => ?_⟩
        have hne : j ≠ m + 1 := fun he => hm (he ▸ hj)
        exact hmax j hj (by omega)

theorem listWrite_pre_length (f : List Nat) (off : Nat) :
    (f.take off ++ List.replicate (off - f.length) 0).length = off := by
  simp only [List.length_append, List.length_take, List.length_replicate]
  omega

theorem listWrite_eq (f b : List Nat) (off : Nat) :
    listWrite f off b =
      (f.take off ++ List.replicate (off - f.length) 0) ++
        (b ++ f.drop (off + b.length)) := by
  unfold listWrite
  simp [List.append_assoc]

/-- Reading back the bytes just written by `pwrite` returns them. -/
theorem listWrite_slice (f b : List Nat) (off : Nat) :
    ((listWrite f off b).drop off).take b.length = b := by
  rw [listWrite_eq, List.drop_left' (listWrite_pre_length f off)]
  exact List.take_left b _

theorem listWrite_length (f b : List Nat) (off : Nat) :
    (listWrite f off b).length = max (off + b.length) f.length := by
  rw [listWrite_eq]
  simp only [List.length_append, List.length_take, List.length_replicate,
    List.length_drop]
  omega

theorem listWrite_take (f b : List Nat) (off : Nat) (h : off ≤ f.length) :
    (listWrite f off b).take off = f.take off := by
  rw [listWrite_eq, List.take_left' (listWrite_pre_length f off),
    Nat.sub_eq_zero_of_le h]
  simp

theorem listWrite_drop (f b : List Nat) (off : Nat) :
    (listWrite f off b).drop (off + b.length) = f.drop (off + b.length) := by
  rw [listWrite_eq, ← List.append_assoc]
  rw [List.drop_left' (by rw [List.length_append, listWrite_pre_length])]

theorem ftrunc_length (f : List Nat) (n : Nat) : (ftrunc f n).length = n := by
  simp only [ftrunc, List.length_append, List.length_take, List.length_replicate]
  omega

theorem ftrunc_of_le (f : List Nat) (n : Nat) (h : n ≤ f.length) :
    ftrunc f n = f.take n := by
  simp [ftrunc, Nat.sub_eq_zero_of_le h]

theorem ftrunc_of_ge (f : List Nat) (n : Nat) (h : f.length ≤ n) :
    ftrunc f n = f ++ List.replicate (n - f.length) 0 := by
  simp [ftrunc, List.take_of_length_le h]

/-- Explicit form of the second component of `get_tid` in the clean
environment. -/
theorem get_tid_snd_clean (st : JState) :
    (get_tid cleanEnv st).2 =
      { st with counter := (get_tid cleanEnv st).1, jlock := false } := by
  unfold get_tid
  simp [cleanEnv]

/-- Full symbolic execution of `jtrans_commit` in the environment where
every allocation and syscall succeeds: the commit returns `ts.len`,
captures the undo payload, extends the file when the capture came
short, applies the new data, sets `J_COMMITED`, runs `free_tid` (whose
downward scan never probes the committed id itself), and unlinks the
record. -/
theorem jtrans_commit_clean (ts : Jtrans) (st : JState) :
    jtrans_commit cleanEnv ts st =
      ((ts.len : Int),
       { ts with id := (get_tid cleanEnv st).1,
                 flags := ts.flags.lor J_COMMITED,
                 pdata := (st.dataFile.drop ts.offset).take ts.len,
                 plen := ((st.dataFile.drop ts.offset).take ts.len).length },
       { dataFile :=
           listWrite
             (if ((st.dataFile.drop ts.offset).take ts.len).length < ts.len then
               ftrunc st.dataFile (ts.offset + ts.len)
             else st.dataFile)
             ts.offset (ts.buf.take ts.len),
         filePos := st.filePos,
         counter := scanDown (insertRec (get_tid cleanEnv st).1 st.records)
           (((get_tid cleanEnv st).1 + U32 - 1) % U32),
         records :=
           (insertRec (get_tid cleanEnv st).1 st.records).erase (get_tid cleanEnv st).1,
         freed := st.freed ++ [(get_tid cleanEnv st).1],
         jlock := false,
         dataLock := if st.nolock then st.dataLock else false,
         nolock := st.nolock }) := by
  have hid : (get_tid cleanEnv st).1 ≠ 0 := get_tid_fst_ne_zero cleanEnv st rfl rfl
  have e1 : cleanEnv.mallocName = true := rfl
  have e2 : cleanEnv.jtfileOk = true := rfl
  have e3 : cleanEnv.openOk = true := rfl
  have e4 : cleanEnv.mallocBufInit = true := rfl
  have e5 : cleanEnv.headWriteOk = true := rfl
  have e6 : cleanEnv.udataWriteOk = true := rfl
  have e7 : cleanEnv.mallocPdata = true := rfl
  have e8 : cleanEnv.dataReadOk = true := rfl
  have e9 : cleanEnv.pdataWriteOk = true := rfl
  have e10 : cleanEnv.bufWriteOk = true := rfl
  have e11 : cleanEnv.applyOk = true := rfl
  have e12 : cleanEnv.freeReadOk = true := rfl
  have e13 : cleanEnv.freeWriteOk = true := rfl
  by_cases hn : st.nolock = true <;>
    by_cases hext : st.dataFile.length - ts.offset < ts.len <;>
      simp [jtrans_commit, commitWork, commitCapture, commitWrites, commitReclaim,
        commitExit, free_tid, get_tid_snd_clean, hid,
        hn, hext, lor_one_land_one, J_COMMITED,
        e1, e2, e3, e4, e5, e6, e7, e8, e9, e10, e11, e12, e13]

/-- Non-extending round trip: writing `b` at `off` inside the file and
then writing back the captured bytes restores the file. -/
theorem rollback_noext (df b : List Nat) (off : Nat)
    (hge : off + b.length ≤ df.length) :
    listWrite (listWrite df off b) off ((df.drop off).take b.length) = df := by
  have hoff : off ≤ df.length := by omega
  have hrb : ((df.drop off).take b.length).length = b.length := by
    simp only [List.length_take, List.length_drop]
    omega
  have hlen1 : (listWrite df off b).length = df.length := by
    rw [listWrite_length]
    omega
  rw [listWrite_eq, listWrite_take df b off hoff, hrb, listWrite_drop, hlen1,
    Nat.sub_eq_zero_of_le hoff]
  have hmid : (df.drop off).take b.length ++ df.drop (off + b.length) = df.drop off := by
    rw [show df.drop (off + b.length) = (df.drop off).drop b.length from
      (List.drop_drop b.length off df).symm]
    exact List.take_append_drop b.length (df.drop off)
  simp only [List.replicate, List.nil_append]
  rw [hmid]
  simp only [List.append_nil, List.nil_append, List.append_assoc]
  exact List.take_append_drop off df

/-- Extending round trip: the original commit read `df.length - off`
bytes, extended the file to `off + b.length` and wrote `b`; rollback
truncates back to `off + plen` and writes the captured bytes back,
restoring the file. -/
theorem rollback_ext (df b : List Nat) (off : Nat)
    (hoff : off ≤ df.length) (hlt : df.length < off + b.length) :
    listWrite
      (ftrunc (listWrite (ftrunc df (off + b.length)) off b)
        (off + ((df.drop off).take b.length).length))
      off ((df.drop off).take b.length) = df := by
  have hm : ((df.drop off).take b.length).length = df.length - off := by
    simp only [List.length_take, List.length_drop]
    omega
  have hrb2 : (df.drop off).take b.length = df.drop off :=
    List.take_of_length_le (by simp only [List.length_drop]; omega)
  have hoffm : off + ((df.drop off).take b.length).length = df.length := by
    rw [hm]; omega
  have hftlen : (ftrunc df (off + b.length)).length = off + b.length :=
    ftrunc_length df (off + b.length)
  have hlen1 : (listWrite (ftrunc df (off + b.length)) off b).length = off + b.length := by
    rw [listWrite_length, hftlen]
    omega
  rw [hoffm,
    ftrunc_of_le _ _ (by rw [hlen1]; omega)]
  rw [listWrite_eq]
  have htk : ((listWrite (ftrunc df (off + b.length)) off b).take df.length).take off
      = df.take off := by
    rw [List.take_take, Nat.min_eq_left hoff,
      listWrite_take _ _ _ (by rw [hftlen]; omega),
      ftrunc_of_ge df _ (by omega), List.take_append_eq_append_take,
      Nat.sub_eq_zero_of_le hoff]
    simp
  have hln2 : ((listWrite (ftrunc df (off + b.length)) off b).take df.length).length
      = df.length := by
    rw [List.length_take, hlen1]
    omega
  have hdp : ((listWrite (ftrunc df (off + b.length)) off b).take df.length).drop
      (off + ((df.drop off).take b.length).length) = [] := by
    rw [hoffm]
    exact List.drop_eq_nil_of_le (by rw [hln2])
  rw [htk, hdp, hln2, Nat.sub_eq_zero_of_le hoff, hrb2]
  simp only [List.replicate, List.nil_append, List.append_nil]
  exact List.take_append_drop off df

/-- In the clean environment `jtrans_rollback` is the commit of the
reverse transaction, after the truncation of an extended file. -/
theorem jtrans_rollback_clean (ts : Jtrans) (st : JState) :
    jtrans_rollback cleanEnv ts st =
      jtrans_commit cleanEnv
        { jtrans_init with
          flags := ts.flags, offset := ts.offset,
          buf := ts.pdata, len := ts.plen, pdata := ts.buf, plen := ts.len,
          hasUdata := ts.hasUdata, ulen := ts.ulen }
        (if ts.plen < ts.len then
          { st with dataFile := ftrunc st.dataFile (ts.offset + ts.plen) }
        else st) := by
  unfold jtrans_rollback
  rw [if_neg (by decide : ¬(cleanEnv.mallocName = false))]

set_option maxRecDepth 8000 in
/-- C2 amended: for every file state and transaction committed on it
(cleanly) whose offset does not exceed the file length, rolling the
committed transaction back restores the data file exactly. -/
theorem claimC2 (ts : Jtrans) (st : JState)
    (hoff : ts.offset ≤ st.dataFile.length)
    (hb : ts.buf.length = ts.len) :
    0 ≤ (jtrans_commit cleanEnv ts st).1 ∧
    (jtrans_rollback cleanEnv (jtrans_commit cleanEnv ts st).2.1
        (jtrans_commit cleanEnv ts st).2.2).2.2.dataFile = st.dataFile := by
  have hdf2 : ∀ (t2 : Jtrans) (s2 : JState),
      (jtrans_commit cleanEnv t2 s2).2.2.dataFile =
        listWrite
          (if ((s2.dataFile.drop t2.offset).take t2.len).length < t2.len then
            ftrunc s2.dataFile (t2.offset + t2.len)
          else s2.dataFile)
          t2.offset (t2.buf.take t2.len) := by
    intro t2 s2
    rw [jtrans_commit_clean t2 s2]
  have hts1 : (jtrans_commit cleanEnv ts st).2.1 =
      { ts with id := (get_tid cleanEnv st).1,
                flags := ts.flags.lor J_COMMITED,
                pdata := (st.dataFile.drop ts.offset).take ts.len,
                plen := ((st.dataFile.drop ts.offset).take ts.len).length } := by
    rw [jtrans_commit_clean ts st]
  have hbuf : ts.buf.take ts.len = ts.buf := by
    rw [← hb]
    exact List.take_length ts.buf
  have hrbt : ((st.dataFile.drop ts.offset).take ts.len).take
      ((st.dataFile.drop ts.offset).take ts.len).length
      = (st.dataFile.drop ts.offset).take ts.len :=
    List.take_length _
  constructor
  · rw [jtrans_commit_clean ts st]
    exact Int.natCast_nonneg ts.len
  · rw [jtrans_rollback_clean, hdf2]
    by_cases hext : st.dataFile.length - ts.offset < ts.len
    · have h1 : ((st.dataFile.drop ts.offset).take ts.len).length < ts.len := by
        simp only [List.length_take, List.length_drop]
        omega
      have hst1 : (jtrans_commit cleanEnv ts st).2.2.dataFile =
          listWrite (ftrunc st.dataFile (ts.offset + ts.len)) ts.offset ts.buf := by
        rw [hdf2 ts st, if_pos h1, hbuf]
      simp only [hts1, hst1, hbuf, hrbt, h1, if_true]
      have h2 : ¬(((ftrunc
          (listWrite (ftrunc st.dataFile (ts.offset + ts.len)) ts.offset ts.buf)
          (ts.offset + ((st.dataFile.drop ts.offset).take ts.len).length)).drop
            ts.offset).take ((st.dataFile.drop ts.offset).take ts.len).length).length
          < ((st.dataFile.drop ts.offset).take ts.len).length := by
        simp only [List.length_take, List.length_drop, ftrunc_length]
        omega
      rw [if_neg h2]
      rw [← hb] at hext ⊢
      exact rollback_ext st.dataFile ts.buf ts.offset hoff (by omega)
    · have h1 : ¬((st.dataFile.drop ts.offset).take ts.len).length < ts.len := by
        simp only [List.length_take, List.length_drop]
        omega
      have hst1 : (jtrans_commit cleanEnv ts st).2.2.dataFile =
          listWrite st.dataFile ts.offset ts.buf := by
        rw [hdf2 ts st, if_neg h1, hbuf]
      simp only [hts1, hst1, hbuf, hrbt, h1, if_false]
      have h2 : ¬(((listWrite st.dataFile ts.offset ts.buf).drop ts.offset).take
            ((st.dataFile.drop ts.offset).take ts.len).length).length
          < ((st.dataFile.drop ts.offset).take ts.len).length := by
        simp only [List.length_take, List.length_drop, listWrite_length, hb]
        omega
      rw [if_neg h2]
      rw [← hb] at hext ⊢
      exact rollback_noext st.dataFile ts.buf ts.offset (by omega)

/-- C2 counterexample: at the state `stA` (file `"AAAA"`), committing
one byte at offset 10 -- past EOF -- and rolling back does NOT restore
the original contents: the rollback truncates only to
`offset + plen = 10`, keeping the zero padding the commit created, so
the claim that rollback always restores the pre-commit contents is
false. -/
theorem claimC2_cex :
    0 ≤ (jtrans_commit cleanEnv tsFar stA).1 ∧
    (jtrans_rollback cleanEnv (jtrans_commit cleanEnv tsFar stA).2.1
        (jtrans_commit cleanEnv tsFar stA).2.2).2.2.dataFile ≠ stA.dataFile := by
  decide

/-- C2 witness: the committed write of `"BB"` at offset 1 over `"AAAA"`
is rolled back to `"AAAA"`. -/
theorem claimC2_wit :
    tsBB.offset ≤ stA.dataFile.length ∧ tsBB.buf.length = tsBB.len ∧
    (0 ≤ (jtrans_commit cleanEnv tsBB stA).1 ∧
      (jtrans_rollback cleanEnv (jtrans_commit cleanEnv tsBB stA).2.1
          (jtrans_commit cleanEnv tsBB stA).2.2).2.2.dataFile = stA.dataFile) :=
  ⟨by decide, by decide, claimC2 tsBB stA (by decide) (by decide)⟩

/-- With `J_COMMITED` clear, the `exit:` tail reports failure. -/
theorem commitExit_of_clear (ts : Jtrans) (st : JState)
    (hf : ts.flags.land J_COMMITED = 0) :
    commitExit ts st =
      (-1, ts, if st.nolock then st else { st with dataLock := false }) := by
  unfold commitExit
  simp [hf]

theorem commitReclaim_dataFile (env : CommitEnv) (ts : Jtrans) (st : JState) :
    (commitReclaim env ts st).2.2.dataFile = st.dataFile := by
  unfold commitReclaim commitExit
  dsimp only
  split_ifs <;> simp [free_tid_dataFile]

theorem commitReclaim_ts (env : CommitEnv) (ts : Jtrans) (st : JState) :
    (commitReclaim env ts st).2.1 = ts := by
  unfold commitReclaim commitExit
  dsimp only
  split_ifs <;> rfl

theorem commitReclaim_fst (env : CommitEnv) (ts : Jtrans) (st : JState)
    (h : ts.flags.land J_COMMITED ≠ 0) :
    (commitReclaim env ts st).1 = ts.len := by
  unfold commitReclaim commitExit
  simp [h]

/-- C1 property at the `commitWrites` stage. -/
theorem commitWrites_C1 (env : CommitEnv) (ts : Jtrans) (st : JState)
    (hf : ts.flags.land J_COMMITED = 0)
    (hb : ts.buf.length = ts.len) :
    (0 ≤ (commitWrites env ts st).1 →
      (((commitWrites env ts st).2.2.dataFile.drop ts.offset).take ts.len
        = ts.buf)) ∧
    (env.applyOk = false → ts.len ≠ 0 →
      (commitWrites env ts st).1 = -1 ∧
      (commitWrites env ts st).2.1.flags.land J_COMMITED = 0) := by
  have hbuf : ts.buf.take ts.len = ts.buf := by
    rw [← hb]
    exact List.take_length ts.buf
  unfold commitWrites
  split_ifs with h1 h2 h3
  · rw [commitExit_of_clear _ _ hf]
    exact ⟨fun h0 => absurd h0 (by simp), fun _ _ => ⟨rfl, hf⟩⟩
  · rw [commitExit_of_clear _ _ hf]
    exact ⟨fun h0 => absurd h0 (by simp), fun _ _ => ⟨rfl, hf⟩⟩
  · rw [commitExit_of_clear _ _ hf]
    exact ⟨fun h0 => absurd h0 (by simp), fun _ _ => ⟨rfl, hf⟩⟩
  · constructor
    · intro h0
      rw [commitReclaim_dataFile]
      show ((listWrite st.dataFile ts.offset (ts.buf.take ts.len)).drop
        ts.offset).take ts.len = ts.buf
      rw [hbuf]
      conv_lhs => rw [← hb]
      exact listWrite_slice st.dataFile ts.buf ts.offset
    · intro ha hl
      exact absurd ⟨hl, ha⟩ h3

/-- C1 property at the `commitCapture` stage. -/
theorem commitCapture_C1 (env : CommitEnv) (ts : Jtrans) (st : JState)
    (hf : ts.flags.land J_COMMITED = 0)
    (hb : ts.buf.length = ts.len) :
    (0 ≤ (commitCapture env ts st).1 →
      (((commitCapture env ts st).2.2.dataFile.drop ts.offset).take ts.len
        = ts.buf)) ∧
    (env.applyOk = false → ts.len ≠ 0 →
      (commitCapture env ts st).1 = -1 ∧
      (commitCapture env ts st).2.1.flags.land J_COMMITED = 0) := by
  unfold commitCapture
  split_ifs with h1
  · rw [commitExit_of_clear _ _ hf]
    exact ⟨fun h0 => absurd h0 (by simp), fun _ _ => ⟨rfl, hf⟩⟩
  all_goals exact commitWrites_C1 env _ _ hf hb

/-- C1 property at the `commitWork` stage. -/
theorem commitWork_C1 (env : CommitEnv) (ts : Jtrans) (st : JState)
    (hf : ts.flags.land J_COMMITED = 0)
    (hb : ts.buf.length = ts.len) :
    (0 ≤ (commitWork env ts st).1 →
      (((commitWork env ts st).2.2.dataFile.drop ts.offset).take ts.len
        = ts.buf)) ∧
    (env.applyOk = false → ts.len ≠ 0 →
      (commitWork env ts st).1 = -1 ∧
      (commitWork env ts st).2.1.flags.land J_COMMITED = 0) := by
  unfold commitWork
  split_ifs with h1 h2 h3
  · rw [commitExit_of_clear _ _ hf]
    exact ⟨fun h0 => absurd h0 (by simp), fun _ _ => ⟨rfl, hf⟩⟩
  · rw [commitExit_of_clear _ _ hf]
    exact ⟨fun h0 => absurd h0 (by simp), fun _ _ => ⟨rfl, hf⟩⟩
  · rw [commitExit_of_clear _ _ hf]
    exact ⟨fun h0 => absurd h0 (by simp), fun _ _ => ⟨rfl, hf⟩⟩
  · exact commitCapture_C1 env _ _ hf hb

/-- C1 amended: for every transaction whose `COMMITTED` flag is clear
on entry to `jtrans_commit`: whenever the call reports success, the
data file's bytes at `[offset, offset + len)` equal the transaction's
new data `ts->buf`; and on any path where the apply write does not
fully complete, the `COMMITTED` flag is not set and the call returns
`-1`. -/
theorem claimC1 (env : CommitEnv) (ts : Jtrans) (st : JState)
    (hf : ts.flags.land J_COMMITED = 0)
    (hb : ts.buf.length = ts.len) :
    (0 ≤ (jtrans_commit env ts st).1 →
      (((jtrans_commit env ts st).2.2.dataFile.drop ts.offset).take ts.len
        = ts.buf)) ∧
    (env.applyOk = false → ts.len ≠ 0 →
      (jtrans_commit env ts st).1 = -1 ∧
      (jtrans_commit env ts st).2.1.flags.land J_COMMITED = 0) := by
  unfold jtrans_commit
  dsimp only
  split_ifs <;>
    first
    | exact ⟨fun h0 => absurd h0 (by simp), fun _ _ => ⟨rfl, hf⟩⟩
    | exact commitWork_C1 env _ _ hf hb

/-- C1 counterexample: a transaction entering `jtrans_commit` with
`J_COMMITED` already set -- as the reverse transaction built by
`jtrans_rollback` is -- is reported successful by the exit check even
though the apply write failed completely: the call returns `1 ≥ 0` but
the data file still holds `"AAAA"`, not the transaction's new data. -/
theorem claimC1_cex :
    0 ≤ (jtrans_commit applyFailEnv tsPre stA).1 ∧
    ((jtrans_commit applyFailEnv tsPre stA).2.2.dataFile.drop tsPre.offset).take
        tsPre.len ≠ tsPre.buf := by
  decide

/-- C1 witness: a clean commit of `"BB"` at offset 1 of `"AAAA"`
puts `"BB"` at bytes 1-2. -/
theorem claimC1_wit :
    tsBB.flags.land J_COMMITED = 0 ∧ tsBB.buf.length = tsBB.len ∧
    ((0 ≤ (jtrans_commit cleanEnv tsBB stA).1 →
      (((jtrans_commit cleanEnv tsBB stA).2.2.dataFile.drop tsBB.offset).take
          tsBB.len = tsBB.buf)) ∧
    (cleanEnv.applyOk = false → tsBB.len ≠ 0 →
      (jtrans_commit cleanEnv tsBB stA).1 = -1 ∧
      (jtrans_commit cleanEnv tsBB stA).2.1.flags.land J_COMMITED = 0)) :=
  ⟨by decide, by decide, claimC1 cleanEnv tsBB stA (by decide) (by decide)⟩

theorem insertRec_nodup (id : Nat) (recs : List Nat) (h : recs.Nodup) :
    (insertRec id recs).Nodup := by
  unfold insertRec
  split_ifs with hm
  · exact h
  · exact List.nodup_cons.mpr ⟨hm, h⟩

theorem mem_insertRec (id j : Nat) (recs : List Nat) (h : j ∈ recs) :
    j ∈ insertRec id recs := by
  unfold insertRec
  split_ifs with hm
  · exact h
  · exact List.mem_cons_of_mem _ h

/-- C4 property at the `commitReclaim` stage: the committed id's
record is gone and the id went through `free_tid`. -/
theorem commitReclaim_C4 (env : CommitEnv) (ts : Jtrans) (st : JState)
    (hnd : st.records.Nodup) :
    (commitReclaim env ts st).2.1.id ∉ (commitReclaim env ts st).2.2.records ∧
    (commitReclaim env ts st).2.1.id ∈ (commitReclaim env ts st).2.2.freed := by
  unfold commitReclaim commitExit
  dsimp only
  split_ifs <;>
    exact ⟨by rw [free_tid_records]; exact hnd.not_mem_erase,
           by rw [free_tid_freed]; simp⟩

/-- C4 property at the `commitWrites` stage. -/
theorem commitWrites_C4 (env : CommitEnv) (ts : Jtrans) (st : JState)
    (hf : ts.flags.land J_COMMITED = 0) (hnd : st.records.Nodup) :
    0 ≤ (commitWrites env ts st).1 →
      (commitWrites env ts st).2.1.id ∉ (commitWrites env ts st).2.2.records ∧
      (commitWrites env ts st).2.1.id ∈ (commitWrites env ts st).2.2.freed := by
  unfold commitWrites
  split_ifs with h1 h2 h3 <;>
    first
    | (rw [commitExit_of_clear _ _ hf]
       exact fun h0 => absurd h0 (by simp))
    | exact fun _ => commitReclaim_C4 env _ _ hnd

/-- C4 property at the `commitCapture` stage. -/
theorem commitCapture_C4 (env : CommitEnv) (ts : Jtrans) (st : JState)
    (hf : ts.flags.land J_COMMITED = 0) (hnd : st.records.Nodup) :
    0 ≤ (commitCapture env ts st).1 →
      (commitCapture env ts st).2.1.id ∉ (commitCapture env ts st).2.2.records ∧
      (commitCapture env ts st).2.1.id ∈ (commitCapture env ts st).2.2.freed := by
  unfold commitCapture
  split_ifs with h1 <;>
    first
    | (rw [commitExit_of_clear _ _ hf]
       exact fun h0 => absurd h0 (by simp))
    | exact commitWrites_C4 env _ _ hf hnd

/-- C4 property at the `commitWork` stage. -/
theorem commitWork_C4 (env : CommitEnv) (ts : Jtrans) (st : JState)
    (hf : ts.flags.land J_COMMITED = 0) (hnd : st.records.Nodup) :
    0 ≤ (commitWork env ts st).1 →
      (commitWork env ts st).2.1.id ∉ (commitWork env ts st).2.2.records ∧
      (commitWork env ts st).2.1.id ∈ (commitWork env ts st).2.2.freed := by
  unfold commitWork
  split_ifs with h1 h2 h3 <;>
    first
    | (rw [commitExit_of_clear _ _ hf]
       exact fun h0 => absurd h0 (by simp))
    | exact commitCapture_C4 env _ _ hf hnd

/-- C4 amended: for every transaction whose `COMMITTED` flag is clear
on entry, when `jtrans_commit` returns success the journal record file
named by the transaction's id no longer exists in the journal
directory and the id has been passed to `free_tid`. -/
theorem claimC4 (env : CommitEnv) (ts : Jtrans) (st : JState)
    (hf : ts.flags.land J_COMMITED = 0) (hnd : st.records.Nodup) :
    0 ≤ (jtrans_commit env ts st).1 →
      (jtrans_commit env ts st).2.1.id ∉ (jtrans_commit env ts st).2.2.records ∧
      (jtrans_commit env ts st).2.1.id ∈ (jtrans_commit env ts st).2.2.freed := by
  unfold jtrans_commit
  dsimp only
  split_ifs <;>
    first
    | exact commitWork_C4 env _ _ hf
        (insertRec_nodup _ _ (by rw [get_tid_records]; exact hnd))
    | exact fun h0 => absurd h0 (by simp)

/-- C4 counterexample: a transaction entering `jtrans_commit` with
`J_COMMITED` already set whose record-header write fails returns
"success" (`rv = 1 ≥ 0`) while its record file still exists in the
journal directory and `free_tid` was never called. -/
theorem claimC4_cex :
    0 ≤ (jtrans_commit headFailEnv tsPre stA).1 ∧
    (jtrans_commit headFailEnv tsPre stA).2.1.id
      ∈ (jtrans_commit headFailEnv tsPre stA).2.2.records ∧
    (jtrans_commit headFailEnv tsPre stA).2.2.freed = [] := by
  decide

/-- C4 witness: after a clean commit at `stA`, the allocated id `2`
has no record file and was freed. -/
theorem claimC4_wit :
    tsBB.flags.land J_COMMITED = 0 ∧ stA.records.Nodup ∧
    (0 ≤ (jtrans_commit cleanEnv tsBB stA).1 →
      (jtrans_commit cleanEnv tsBB stA).2.1.id
        ∉ (jtrans_commit cleanEnv tsBB stA).2.2.records ∧
      (jtrans_commit cleanEnv tsBB stA).2.1.id
        ∈ (jtrans_commit cleanEnv tsBB stA).2.2.freed) :=
  ⟨by decide, by decide, claimC4 cleanEnv tsBB stA (by decide) (by decide)⟩

theorem lor_committed_ne (x : Nat) : (x.lor J_COMMITED).land J_COMMITED ≠ 0 := by
  unfold J_COMMITED
  rw [lor_one_land_one]
  exact one_ne_zero

theorem commitExit_filePos (ts : Jtrans) (st : JState) :
    (commitExit ts st).2.2.filePos = st.filePos := by
  unfold commitExit
  dsimp only
  split_ifs <;> rfl

theorem commitReclaim_filePos (env : CommitEnv) (ts : Jtrans) (st : JState) :
    (commitReclaim env ts st).2.2.filePos = st.filePos := by
  unfold commitReclaim commitExit
  dsimp only
  split_ifs <;> simp [free_tid_filePos]

theorem commitWrites_filePos (env : CommitEnv) (ts : Jtrans) (st : JState) :
    (commitWrites env ts st).2.2.filePos = st.filePos := by
  unfold commitWrites
  split_ifs <;> simp [commitExit_filePos, commitReclaim_filePos]

theorem commitCapture_filePos (env : CommitEnv) (ts : Jtrans) (st : JState) :
    (commitCapture env ts st).2.2.filePos = st.filePos := by
  unfold commitCapture
  split_ifs <;> simp [commitExit_filePos, commitWrites_filePos]

theorem commitWork_filePos (env : CommitEnv) (ts : Jtrans) (st : JState) :
    (commitWork env ts st).2.2.filePos = st.filePos := by
  unfold commitWork
  split_ifs <;> simp [commitExit_filePos, commitCapture_filePos]

theorem jtrans_commit_filePos (env : CommitEnv) (ts : Jtrans) (st : JState) :
    (jtrans_commit env ts st).2.2.filePos = st.filePos := by
  unfold jtrans_commit
  dsimp only
  split_ifs <;> simp [commitWork_filePos, get_tid_filePos]

/-- C10 property at the `commitWrites` stage. -/
theorem commitWrites_C10 (env : CommitEnv) (ts : Jtrans) (st : JState)
    (hf : ts.flags.land J_COMMITED = 0) :
    (commitWrites env ts st).1 = (ts.len : Int) ∧
      (commitWrites env ts st).2.1.flags.land J_COMMITED ≠ 0 ∨
    (commitWrites env ts st).1 = -1 ∧
      (commitWrites env ts st).2.1.flags.land J_COMMITED = 0 := by
  unfold commitWrites
  split_ifs with h1 h2 h3 <;>
    first
    | (rw [commitExit_of_clear _ _ hf]
       exact Or.inr ⟨rfl, hf⟩)
    | (refine Or.inl ⟨?_, ?_⟩
       · rw [commitReclaim_fst _ _ _ (lor_committed_ne ts.flags)]
       · rw [commitReclaim_ts]
         exact lor_committed_ne ts.flags)

/-- C10 property at the `commitCapture` stage. -/
theorem commitCapture_C10 (env : CommitEnv) (ts : Jtrans) (st : JState)
    (hf : ts.flags.land J_COMMITED = 0) :
    (commitCapture env ts st).1 = (ts.len : Int) ∧
      (commitCapture env ts st).2.1.flags.land J_COMMITED ≠ 0 ∨
    (commitCapture env ts st).1 = -1 ∧
      (commitCapture env ts st).2.1.flags.land J_COMMITED = 0 := by
  unfold commitCapture
  split_ifs with h1 <;>
    first
    | (rw [commitExit_of_clear _ _ hf]
       exact Or.inr ⟨rfl, hf⟩)
    | exact commitWrites_C10 env _ _ hf

/-- C10 property at the `commitWork` stage. -/
theorem commitWork_C10 (env : CommitEnv) (ts : Jtrans) (st : JState)
    (hf : ts.flags.land J_COMMITED = 0) :
    (commitWork env ts st).1 = (ts.len : Int) ∧
      (commitWork env ts st).2.1.flags.land J_COMMITED ≠ 0 ∨
    (commitWork env ts st).1 = -1 ∧
      (commitWork env ts st).2.1.flags.land J_COMMITED = 0 := by
  unfold commitWork
  split_ifs with h1 h2 h3 <;>
    first
    | (rw [commitExit_of_clear _ _ hf]
       exact Or.inr ⟨rfl, hf⟩)
    | exact commitCapture_C10 env _ _ hf

/-- C10 property of the whole commit: the return value is `ts.len`
with `J_COMMITED` set, or `-1` with it clear. -/
theorem jtrans_commit_C10 (env : CommitEnv) (ts : Jtrans) (st : JState)
    (hf : ts.flags.land J_COMMITED = 0) :
    (jtrans_commit env ts st).1 = (ts.len : Int) ∧
      (jtrans_commit env ts st).2.1.flags.land J_COMMITED ≠ 0 ∨
    (jtrans_commit env ts st).1 = -1 ∧
      (jtrans_commit env ts st).2.1.flags.land J_COMMITED = 0 := by
  unfold jtrans_commit
  dsimp only
  split_ifs <;>
    first
    | exact commitWork_C10 env _ _ hf
    | exact Or.inr ⟨rfl, hf⟩

/-- C10 amended: for every transaction whose `COMMITTED` flag is clear
on entry, `jtrans_commit` returns `ts->len` (with `J_COMMITED` set) on
success and `-1` (with `J_COMMITED` clear) on every failure; hence a
successful zero-length commit returns `0`, and `jwrite` detects success
with `rv >= 0` -- it advances the file pointer by `count` exactly when
`rv >= 0` and leaves it unchanged when `rv < 0`. -/
theorem claimC10 (env : CommitEnv) (ts : Jtrans) (st : JState)
    (hf : ts.flags.land J_COMMITED = 0) :
    ((jtrans_commit env ts st).1 = (ts.len : Int) ∧
        (jtrans_commit env ts st).2.1.flags.land J_COMMITED ≠ 0 ∨
      (jtrans_commit env ts st).1 = -1 ∧
        (jtrans_commit env ts st).2.1.flags.land J_COMMITED = 0) ∧
    (ts.len = 0 → 0 ≤ (jtrans_commit env ts st).1 →
      (jtrans_commit env ts st).1 = 0) ∧
    (∀ (buf : List Nat) (count : Nat) (st2 : JState),
      (0 ≤ (jwrite env buf count st2).1 →
        (jwrite env buf count st2).2.filePos = st2.filePos + count) ∧
      ((jwrite env buf count st2).1 < 0 →
        (jwrite env buf count st2).2.filePos = st2.filePos)) := by
  have h := jtrans_commit_C10 env ts st hf
  refine ⟨h, ?_, ?_⟩
  · intro hl h0
    rcases h with ⟨h1, _⟩ | ⟨h1, _⟩
    · rw [h1, hl]
      simp
    · exfalso
      rw [h1] at h0
      exact absurd h0 (by norm_num)
  · intro buf count st2
    unfold jwrite
    dsimp only
    split_ifs with hc
    · exact ⟨fun _ => rfl, fun hneg => absurd hc (not_le.mpr hneg)⟩
    · exact ⟨fun h0 => absurd h0 hc,
             fun _ => jtrans_commit_filePos env _ st2⟩

/-- C10 counterexample: a transaction entering `jtrans_commit` with
`J_COMMITED` already set returns its length `1` -- reported success --
when the record-body write fails before the fsync, with no data
applied: "returns -1 on every failure" is false as stated. -/
theorem claimC10_cex :
    (jtrans_commit bufFailEnv tsPre stA).1 = 1 ∧
    (jtrans_commit bufFailEnv tsPre stA).2.2.dataFile = stA.dataFile := by
  decide

/-- C10 witness: the zero-length transaction `jtrans_init` commits
cleanly with return value `0`, and `jwrite` of two bytes advances the
file pointer by `2`. -/
theorem claimC10_wit :
    jtrans_init.flags.land J_COMMITED = 0 ∧
    ((jtrans_commit cleanEnv jtrans_init stA).1 = (jtrans_init.len : Int) ∧
        (jtrans_commit cleanEnv jtrans_init stA).2.1.flags.land J_COMMITED ≠ 0 ∨
      (jtrans_commit cleanEnv jtrans_init stA).1 = -1 ∧
        (jtrans_commit cleanEnv jtrans_init stA).2.1.flags.land J_COMMITED = 0) ∧
    (jtrans_init.len = 0 → 0 ≤ (jtrans_commit cleanEnv jtrans_init stA).1 →
      (jtrans_commit cleanEnv jtrans_init stA).1 = 0) ∧
    ((0 ≤ (jwrite cleanEnv [66, 67] 2 stA).1 →
        (jwrite cleanEnv [66, 67] 2 stA).2.filePos = stA.filePos + 2) ∧
      ((jwrite cleanEnv [66, 67] 2 stA).1 < 0 →
        (jwrite cleanEnv [66, 67] 2 stA).2.filePos = stA.filePos)) :=
  ⟨by decide, (claimC10 cleanEnv jtrans_init stA (by decide)).1,
   (claimC10 cleanEnv jtrans_init stA (by decide)).2.1,
   (claimC10 cleanEnv jtrans_init stA (by decide)).2.2 [66, 67] 2 stA⟩

theorem commitExit_fst_clear (ts : Jtrans) (st : JState)
    (hf : ts.flags.land J_COMMITED = 0) : (commitExit ts st).1 = -1 := by
  rw [commitExit_of_clear _ _ hf]

theorem commitExit_state (ts : Jtrans) (st : JState) :
    (commitExit ts st).2.2.freed = st.freed ∧
    (commitExit ts st).2.2.records = st.records ∧
    (commitExit ts st).2.2.dataFile = st.dataFile := by
  unfold commitExit
  dsimp only
  split_ifs <;> exact ⟨rfl, rfl, rfl⟩

/-- C3 property at the `commitWrites` stage: a record-body write
failure aborts with `-1`, touching nothing. -/
theorem commitWrites_C3 (env : CommitEnv) (ts : Jtrans) (st : JState)
    (hf : ts.flags.land J_COMMITED = 0)
    (hfail : (ts.len ≠ 0 ∧ env.pdataWriteOk = false) ∨
      (ts.len ≠ 0 ∧ env.bufWriteOk = false)) :
    (commitWrites env ts st).1 = -1 ∧
    (commitWrites env ts st).2.2.freed = st.freed ∧
    (commitWrites env ts st).2.2.records = st.records ∧
    (commitWrites env ts st).2.2.dataFile = st.dataFile := by
  unfold commitWrites
  split_ifs with h1 h2 h3
  · exact ⟨commitExit_fst_clear _ _ hf, (commitExit_state _ _).1,
      (commitExit_state _ _).2.1, (commitExit_state _ _).2.2⟩
  · exact ⟨commitExit_fst_clear _ _ hf, (commitExit_state _ _).1,
      (commitExit_state _ _).2.1, (commitExit_state _ _).2.2⟩
  · rcases hfail with hA | hB
    · exact absurd hA h1
    · exact absurd hB h2
  · rcases hfail with hA | hB
    · exact absurd hA h1
    · exact absurd hB h2

/-- C3 property at the `commitCapture` stage: a pre-fsync failure from
the capture on aborts with `-1`; the data file is unchanged except
possibly for the `ftruncate` extension. -/
theorem commitCapture_C3 (env : CommitEnv) (ts : Jtrans) (st : JState)
    (hf : ts.flags.land J_COMMITED = 0)
    (hfail : (ts.len ≠ 0 ∧ env.dataReadOk = false) ∨
      (ts.len ≠ 0 ∧ env.pdataWriteOk = false) ∨
      (ts.len ≠ 0 ∧ env.bufWriteOk = false)) :
    (commitCapture env ts st).1 = -1 ∧
    (commitCapture env ts st).2.2.freed = st.freed ∧
    (commitCapture env ts st).2.2.records = st.records ∧
    ((commitCapture env ts st).2.2.dataFile = st.dataFile ∨
      (commitCapture env ts st).2.2.dataFile
        = ftrunc st.dataFile (ts.offset + ts.len)) := by
  unfold commitCapture
  split_ifs with h1 hext
  · exact ⟨commitExit_fst_clear _ _ hf, (commitExit_state _ _).1,
      (commitExit_state _ _).2.1, Or.inl (commitExit_state _ _).2.2⟩
  · obtain ⟨e1, e2, e3, e4⟩ := commitWrites_C3 env
      { ts with pdata := (st.dataFile.drop ts.offset).take ts.len,
                plen := ((st.dataFile.drop ts.offset).take ts.len).length }
      { st with dataFile := ftrunc st.dataFile (ts.offset + ts.len) }
      hf (hfail.resolve_left h1)
    exact ⟨e1, e2, e3, Or.inr e4⟩
  · obtain ⟨e1, e2, e3, e4⟩ := commitWrites_C3 env
      { ts with pdata := (st.dataFile.drop ts.offset).take ts.len,
                plen := ((st.dataFile.drop ts.offset).take ts.len).length }
      st hf (hfail.resolve_left h1)
    exact ⟨e1, e2, e3, Or.inl e4⟩

/-- C3 property at the `commitWork` stage. -/
theorem commitWork_C3 (env : CommitEnv) (ts : Jtrans) (st : JState)
    (hf : ts.flags.land J_COMMITED = 0)
    (hfail : env.headWriteOk = false ∨
      (ts.hasUdata = true ∧ ts.ulen ≠ 0 ∧ env.udataWriteOk = false) ∨
      env.mallocPdata = false ∨
      (ts.len ≠ 0 ∧ env.dataReadOk = false) ∨
      (ts.len ≠ 0 ∧ env.pdataWriteOk = false) ∨
      (ts.len ≠ 0 ∧ env.bufWriteOk = false)) :
    (commitWork env ts st).1 = -1 ∧
    (commitWork env ts st).2.2.freed = st.freed ∧
    (commitWork env ts st).2.2.records = st.records ∧
    ((commitWork env ts st).2.2.dataFile = st.dataFile ∨
      (commitWork env ts st).2.2.dataFile
        = ftrunc st.dataFile (ts.offset + ts.len)) := by
  unfold commitWork
  split_ifs with h1 h2 h3
  · exact ⟨commitExit_fst_clear _ _ hf, (commitExit_state _ _).1,
      (commitExit_state _ _).2.1, Or.inl (commitExit_state _ _).2.2⟩
  · exact ⟨commitExit_fst_clear _ _ hf, (commitExit_state _ _).1,
      (commitExit_state _ _).2.1, Or.inl (commitExit_state _ _).2.2⟩
  · exact ⟨commitExit_fst_clear _ _ hf, (commitExit_state _ _).1,
      (commitExit_state _ _).2.1, Or.inl (commitExit_state _ _).2.2⟩
  · have hfail2 : (ts.len ≠ 0 ∧ env.dataReadOk = false) ∨
        (ts.len ≠ 0 ∧ env.pdataWriteOk = false) ∨
        (ts.len ≠ 0 ∧ env.bufWriteOk = false) := by
      rcases hfail with h | h | h | h | h | h
      · exact absurd h h1
      · exact absurd h h2
      · exact absurd h h3
      · exact Or.inl h
      · exact Or.inr (Or.inl h)
      · exact Or.inr (Or.inr h)
    exact commitCapture_C3 env _ _ hf hfail2

/-- C3 amended: every failure of `jtrans_commit` before the durability
fsync (with `COMMITTED` clear on entry) returns `-1`, but it does NOT
abort cleanly in the claimed sense: `free_tid` is never called (the
ghost trace is unchanged), no record file is ever unlinked (the record
set only grows), and the data file, while never receiving the new
data, may already have been extended by the capture's `ftruncate`. -/
theorem claimC3 (env : CommitEnv) (ts : Jtrans) (st : JState)
    (hf : ts.flags.land J_COMMITED = 0)
    (hfail : preFsyncFail env ts) :
    (jtrans_commit env ts st).1 = -1 ∧
    (jtrans_commit env ts st).2.2.freed = st.freed ∧
    (∀ j ∈ st.records, j ∈ (jtrans_commit env ts st).2.2.records) ∧
    ((jtrans_commit env ts st).2.2.dataFile = st.dataFile ∨
      (jtrans_commit env ts st).2.2.dataFile
        = ftrunc st.dataFile (ts.offset + ts.len)) := by
  by_cases h1 : env.mallocName = false
  · unfold jtrans_commit
    rw [if_pos h1]
    exact ⟨rfl, rfl, fun j hj => hj, Or.inl rfl⟩
  by_cases h2 : (get_tid env st).1 = 0
  · unfold jtrans_commit
    rw [if_neg h1, if_pos h2]
    exact ⟨rfl, get_tid_freed env st,
      fun j hj => by rw [get_tid_records]; exact hj,
      Or.inl (get_tid_dataFile env st)⟩
  by_cases h3 : env.jtfileOk = false
  · unfold jtrans_commit
    rw [if_neg h1, if_neg h2, if_pos h3]
    exact ⟨rfl, get_tid_freed env st,
      fun j hj => by rw [get_tid_records]; exact hj,
      Or.inl (get_tid_dataFile env st)⟩
  by_cases h4 : env.openOk = false
  · unfold jtrans_commit
    rw [if_neg h1, if_neg h2, if_neg h3, if_pos h4]
    exact ⟨rfl, get_tid_freed env st,
      fun j hj => by rw [get_tid_records]; exact hj,
      Or.inl (get_tid_dataFile env st)⟩
  unfold jtrans_commit
  rw [if_neg h1, if_neg h2, if_neg h3, if_neg h4]
  dsimp only
  by_cases h5 : env.mallocBufInit = false
  · rw [if_pos h5]
    constructor
    · split_ifs <;> rfl
    constructor
    · split_ifs <;> exact get_tid_freed env st
    constructor
    · intro j hj
      split_ifs <;>
        exact mem_insertRec _ j _ (by rw [get_tid_records]; exact hj)
    · split_ifs <;> exact Or.inl (get_tid_dataFile env st)
  rw [if_neg h5]
  have hfail1 : env.headWriteOk = false ∨
      (ts.hasUdata = true ∧ ts.ulen ≠ 0 ∧ env.udataWriteOk = false) ∨
      env.mallocPdata = false ∨
      (ts.len ≠ 0 ∧ env.dataReadOk = false) ∨
      (ts.len ≠ 0 ∧ env.pdataWriteOk = false) ∨
      (ts.len ≠ 0 ∧ env.bufWriteOk = false) := by
    have hr : ¬env.tidReadOk = false :=
      fun hx => h2 (get_tid_fst_zero env st (Or.inl hx))
    have hw : ¬env.tidWriteOk = false :=
      fun hx => h2 (get_tid_fst_zero env st (Or.inr hx))
    unfold preFsyncFail at hfail
    tauto
  by_cases hn : (get_tid env st).2.nolock = true
  · rw [if_pos hn]
    obtain ⟨e1, e2, e3, e4⟩ := commitWork_C3 env
      { ts with id := (get_tid env st).1 } _ hf hfail1
    refine ⟨e1, e2.trans (get_tid_freed env st), ?_, ?_⟩
    · intro j hj
      rw [e3]
      exact mem_insertRec _ j _ (by rw [get_tid_records]; exact hj)
    · rcases e4 with e | e
      · exact Or.inl (e.trans (get_tid_dataFile env st))
      · exact Or.inr (e.trans (by rw [get_tid_dataFile]))
  · rw [if_neg hn]
    obtain ⟨e1, e2, e3, e4⟩ := commitWork_C3 env
      { ts with id := (get_tid env st).1 } _ hf hfail1
    refine ⟨e1, e2.trans (get_tid_freed env st), ?_, ?_⟩
    · intro j hj
      rw [e3]
      exact mem_insertRec _ j _ (by rw [get_tid_records]; exact hj)
    · rcases e4 with e | e
      · exact Or.inl (e.trans (get_tid_dataFile env st))
      · exact Or.inr (e.trans (by rw [get_tid_dataFile]))

/-- C3 counterexample: a record-header write failure (pre-fsync, flag
clear) returns `-1`, but the record file for the allocated id `2` still
exists -- it was not unlinked -- and the id was never freed, refuting
the claimed clean abort. -/
theorem claimC3_cex :
    (jtrans_commit headFailEnv tsBB stA).1 = -1 ∧
    2 ∈ (jtrans_commit headFailEnv tsBB stA).2.2.records ∧
    (jtrans_commit headFailEnv tsBB stA).2.2.freed = [] := by
  decide

/-- C3 witness: the header-write failure at `stA` aborts with `-1`,
keeps every pre-existing record, leaves the ghost free trace unchanged
and leaves the data file either unchanged or merely extended. -/
theorem claimC3_wit :
    tsBB.flags.land J_COMMITED = 0 ∧ preFsyncFail headFailEnv tsBB ∧
    ((jtrans_commit headFailEnv tsBB stA).1 = -1 ∧
      (jtrans_commit headFailEnv tsBB stA).2.2.freed = stA.freed ∧
      (∀ j ∈ stA.records, j ∈ (jtrans_commit headFailEnv tsBB stA).2.2.records) ∧
      ((jtrans_commit headFailEnv tsBB stA).2.2.dataFile = stA.dataFile ∨
        (jtrans_commit headFailEnv tsBB stA).2.2.dataFile
          = ftrunc stA.dataFile (tsBB.offset + tsBB.len))) :=
  ⟨by decide, by decide, claimC3 headFailEnv tsBB stA (by decide) (by decide)⟩

/-- C6: for every stored counter value `c`, a successful `get_tid`
returns `c + 1` computed with unsigned 32-bit wrap-around, except that
a wrapped result of `0` becomes `1` (so the returned id is never `0` on
success), and it writes the returned value back to the counter; on any
read or write failure under the lock it returns the sentinel `0`, and
the lock-file lock is released on every path. -/
theorem claimC6 (env : CommitEnv) (st : JState) (h : st.counter < U32) :
    (env.tidReadOk = true → env.tidWriteOk = true →
      (get_tid env st).1 =
        (if (st.counter + 1) % U32 = 0 then 1 else (st.counter + 1) % U32) ∧
      (get_tid env st).1 ≠ 0 ∧
      (get_tid env st).2.counter = (get_tid env st).1 ∧
      (get_tid env st).2.jlock = false) ∧
    ((env.tidReadOk = false ∨ env.tidWriteOk = false) →
      (get_tid env st).1 = 0 ∧ (get_tid env st).2.jlock = false) := by
  constructor
  · intro h1 h2
    refine ⟨get_tid_fst_of_ok env st h1 h2, get_tid_fst_ne_zero env st h1 h2, ?_, ?_⟩
    · unfold get_tid
      simp [h1, h2]
    · unfold get_tid
      simp [h1, h2]
  · intro hfail
    refine ⟨get_tid_fst_zero env st hfail, ?_⟩
    unfold get_tid
    rcases hfail with hf | hf
    · simp [hf]
    · by_cases hr : env.tidReadOk = false
      · simp [hr]
      · simp [hr, hf]

/-- C6 witness: at the wrap-around counter value `4294967295`, a clean
`get_tid` returns `1` and stores `1` back. -/
theorem claimC6_wit :
    ({ stA with counter := 4294967295 } : JState).counter < U32 ∧
    (get_tid cleanEnv { stA with counter := 4294967295 }).1 = 1 ∧
    (get_tid cleanEnv { stA with counter := 4294967295 }).2.counter = 1 := by
  have h := (claimC6 cleanEnv { stA with counter := 4294967295 } (by decide)).1 rfl rfl
  refine ⟨by decide, ?_, ?_⟩
  · rw [h.1]
    decide
  · rw [h.2.2.1, h.1]
    decide

/-- C7 counterexample: with the counter at `5` and the record file of
the just-committed transaction `5` the only one existing (precisely the
state in which `jtrans_commit` invokes `free_tid`), `free_tid(5)`
writes `0` -- the exhausted loop variable -- as the new counter, even
though the largest id whose record file still exists is `5`, so the
claim that it writes the largest id whose record file still exists is
false. -/
theorem claimC7_cex :
    (free_tid cleanEnv 5 stC7).counter = 0 ∧ 5 ∈ stC7.records ∧
      ¬5 < stC7.counter ∧ 0 ∉ stC7.records := by decide

/-- C7 amended: if `tid` is strictly less than the current counter (or
the counter read fails), the counter is left unchanged; otherwise
`free_tid` scans downward from `counter - 1` (in u32 arithmetic) and
writes as the new counter the largest id STRICTLY BELOW the old counter
whose record file still exists, or `0` when no record file exists in
that range -- the freed transaction's own record, still present at call
time, is never probed. -/
theorem claimC7 (env : CommitEnv) (tid : Nat) (st : JState) :
    (env.freeReadOk = true → tid < st.counter →
      (free_tid env tid st).counter = st.counter) ∧
    (env.freeReadOk = true → env.freeWriteOk = true → ¬tid < st.counter →
      ((free_tid env tid st).counter = 0 ∧
          ∀ j ∈ st.records, ¬(1 ≤ j ∧ j ≤ (st.counter + U32 - 1) % U32)) ∨
        ((free_tid env tid st).counter ∈ st.records ∧
          1 ≤ (free_tid env tid st).counter ∧
          (free_tid env tid st).counter ≤ (st.counter + U32 - 1) % U32 ∧
          ∀ j ∈ st.records, j ≤ (st.counter + U32 - 1) % U32 →
            j ≤ (free_tid env tid st).counter)) := by
  constructor
  · intro h1 h2
    unfold free_tid
    simp [h1, h2]
  · intro h1 h2 h3
    have key : (free_tid env tid st).counter =
        scanDown st.records ((st.counter + U32 - 1) % U32) := by
      unfold free_tid
      simp [h1, h2, h3]
    rw [key]
    exact scanDown_spec st.records ((st.counter + U32 - 1) % U32)

/-- C7 witness: freeing the non-max id `1` leaves the counter `5`
unchanged, and freeing the max id `5` writes the scan result, which at
`stC7` is `0` (no record below `5` exists). -/
theorem claimC7_wit :
    (free_tid cleanEnv 1 stC7).counter = stC7.counter ∧
    (((free_tid cleanEnv 5 stC7).counter = 0 ∧
        ∀ j ∈ stC7.records, ¬(1 ≤ j ∧ j ≤ (stC7.counter + U32 - 1) % U32)) ∨
      ((free_tid cleanEnv 5 stC7).counter ∈ stC7.records ∧
        1 ≤ (free_tid cleanEnv 5 stC7).counter ∧
        (free_tid cleanEnv 5 stC7).counter ≤ (stC7.counter + U32 - 1) % U32 ∧
        ∀ j ∈ stC7.records, j ≤ (stC7.counter + U32 - 1) % U32 →
          j ≤ (free_tid cleanEnv 5 stC7).counter)) :=
  ⟨(claimC7 cleanEnv 1 stC7).1 rfl (by decide),
   (claimC7 cleanEnv 5 stC7).2 rfl rfl (by decide)⟩

/-- Bounds invariant of the operation-parsing loop of `fill_trans`:
every parsed operation's data lies at or after the loop's starting
position and ends within the mapped extent. -/
theorem fillOps_bounds (map : List Nat) :
    ∀ (n p : Nat) (ops : List Check.Joper),
      Check.fillOps map p n = some ops →
      ∀ op ∈ ops, p ≤ op.start ∧ op.start + op.len ≤ map.length := by
  intro n
  induction n with
  | zero =>
    intro p ops h op hop
    rw [Check.fillOps] at h
    cases h
    simp at hop
  | succ m ih =>
    intro p ops h op hop
    rw [Check.fillOps] at h
    dsimp only at h
    split_ifs at h with hb1 hb2
    cases hrec : Check.fillOps map (p + Check.J_DISKOPHEADSIZE + Check.readU32 map p) m with
    | none =>
      rw [hrec] at h
      cases h
    | some ops2 =>
      rw [hrec] at h
      cases h
      rcases List.mem_cons.mp hop with he | hm
      · subst he
        dsimp only
        constructor
        · omega
        · simp only [not_lt] at hb2
          omega
      · obtain ⟨hs, hbd⟩ := ih (p + Check.J_DISKOPHEADSIZE + Check.readU32 map p) ops2 hrec op hm
        exact ⟨by omega, hbd⟩

/-- C8: `fill_trans` rejects any map shorter than the fixed header (and
any record whose declared operation headers or bodies would extend past
the mapped extent -- those paths return failure inside `fillOps`); and
whenever it succeeds, every parsed operation's data pointer and length
lie entirely within the mapped extent. -/
theorem claimC8 (map : List Nat) :
    (map.length < Check.J_DISKHEADSIZE → Check.fill_trans map = none) ∧
    (∀ (id fl : Nat) (ops : List Check.Joper),
      Check.fill_trans map = some (id, fl, ops) →
      ∀ op ∈ ops, Check.J_DISKHEADSIZE ≤ op.start ∧
        op.start + op.len ≤ map.length) := by
  constructor
  · intro h
    unfold Check.fill_trans
    rw [if_pos h]
  · intro id fl ops h op hop
    unfold Check.fill_trans at h
    dsimp only at h
    split_ifs at h with h1
    cases hrec : Check.fillOps map Check.J_DISKHEADSIZE (Check.readU32 map 8) with
    | none =>
      rw [hrec] at h
      cases h
    | some ops2 =>
      rw [hrec] at h
      cases h
      exact fillOps_bounds map (Check.readU32 map 8) Check.J_DISKHEADSIZE ops hrec op hop

/-- C8 witness: a 3-byte map is rejected; a well-formed 30-byte map
with one 2-byte operation parses with the operation's data inside the
map. -/
theorem claimC8_wit :
    Check.fill_trans [1, 2, 3] = none ∧
    (∀ op ∈ [({ len := 2, plen := 0, offset := 0, start := 28 } : Check.Joper)],
      Check.J_DISKHEADSIZE ≤ op.start ∧
      op.start + op.len ≤
        ([1, 0, 0, 0, 0, 0, 0, 0, 1, 0, 0, 0,
          2, 0, 0, 0, 0, 0, 0, 0, 0, 0, 0, 0, 0, 0, 0, 0,
          7, 8] : List Nat).length) :=
  ⟨(claimC8 [1, 2, 3]).1 (by decide),
   (claimC8 [1, 0, 0, 0, 0, 0, 0, 0, 1, 0, 0, 0,
      2, 0, 0, 0, 0, 0, 0, 0, 0, 0, 0, 0, 0, 0, 0, 0,
      7, 8]).2 1 0 [{ len := 2, plen := 0, offset := 0, start := 28 }] (by decide)⟩

/-- Running totals of the `jfsck` loop over any id list: `total` grows
by one per id, each outcome counter grows by the number of ids whose
record classifies to it, and the applied ids are exactly those whose
records were replayed. -/
theorem jfsck_fold (csum : List Nat → Nat) (applyOk : Nat → Bool)
    (recs : Nat → Check.RecEntry) :
    ∀ (L : List Nat) (s : Check.FsckState),
      (L.foldl (Check.jfsckStep csum applyOk recs) s).res.total
        = s.res.total + L.length ∧
      (L.foldl (Check.jfsckStep csum applyOk recs) s).res.invalid
        = s.res.invalid + L.countP (fun j =>
            decide (Check.classify csum (applyOk j) (recs j) = Check.Outcome.invalid)) ∧
      (L.foldl (Check.jfsckStep csum applyOk recs) s).res.in_progress
        = s.res.in_progress + L.countP (fun j =>
            decide (Check.classify csum (applyOk j) (recs j) = Check.Outcome.in_progress)) ∧
      (L.foldl (Check.jfsckStep csum applyOk recs) s).res.broken
        = s.res.broken + L.countP (fun j =>
            decide (Check.classify csum (applyOk j) (recs j) = Check.Outcome.broken)) ∧
      (L.foldl (Check.jfsckStep csum applyOk recs) s).res.corrupt
        = s.res.corrupt + L.countP (fun j =>
            decide (Check.classify csum (applyOk j) (recs j) = Check.Outcome.corrupt)) ∧
      (L.foldl (Check.jfsckStep csum applyOk recs) s).res.apply_error
        = s.res.apply_error + L.countP (fun j =>
            decide (Check.classify csum (applyOk j) (recs j) = Check.Outcome.apply_error)) ∧
      (L.foldl (Check.jfsckStep csum applyOk recs) s).res.reapplied
        = s.res.reapplied + L.countP (fun j =>
            decide (Check.classify csum (applyOk j) (recs j) = Check.Outcome.reapplied)) ∧
      (L.foldl (Check.jfsckStep csum applyOk recs) s).applied
        = s.applied ++ L.filter (fun j =>
            decide (Check.classify csum (applyOk j) (recs j) = Check.Outcome.reapplied)) := by
  intro L
  induction L with
  | nil => intro s; simp
  | cons a L ih =>
    intro s
    have h := ih (Check.jfsckStep csum applyOk recs s a)
    rcases ho : Check.classify csum (applyOk a) (recs a) <;>
      simp only [List.foldl_cons, List.countP_cons, List.filter_cons,
        List.length_cons] at h ⊢ <;>
      obtain ⟨e1, e2, e3, e4, e5, e6, e7, e8⟩ := h <;>
      rw [e1, e2, e3, e4, e5, e6, e7, e8] <;>
      simp [Check.jfsckStep, Check.bump, ho] <;>
      omega

/-- C5: in every `jfsck` run, a record whose trailing checksum does
not match increments exactly the `corrupt` counter for that record
(each counter equals the count of records classifying to it, so a
corrupt record contributes to no other counter), is never applied to
the data file, and does not stop the loop: `total` is incremented for
every id from `1` to `maxtid` regardless of outcome. -/
theorem claimC5 (csum : List Nat → Nat) (applyOk : Nat → Bool)
    (recs : Nat → Check.RecEntry) (maxtid : Nat) (df0 : List Nat) (i : Nat)
    (h1 : 1 ≤ i) (h2 : i ≤ maxtid)
    (hc : Check.classify csum (applyOk i) (recs i) = Check.Outcome.corrupt) :
    (Check.jfsck csum applyOk recs maxtid df0).res.total = maxtid ∧
    (Check.jfsck csum applyOk recs maxtid df0).res.corrupt
      = (List.range' 1 maxtid).countP (fun j =>
          decide (Check.classify csum (applyOk j) (recs j) = Check.Outcome.corrupt)) ∧
    1 ≤ (Check.jfsck csum applyOk recs maxtid df0).res.corrupt ∧
    (Check.jfsck csum applyOk recs maxtid df0).res.invalid
      = (List.range' 1 maxtid).countP (fun j =>
          decide (Check.classify csum (applyOk j) (recs j) = Check.Outcome.invalid)) ∧
    (Check.jfsck csum applyOk recs maxtid df0).res.in_progress
      = (List.range' 1 maxtid).countP (fun j =>
          decide (Check.classify csum (applyOk j) (recs j) = Check.Outcome.in_progress)) ∧
    (Check.jfsck csum applyOk recs maxtid df0).res.broken
      = (List.range' 1 maxtid).countP (fun j =>
          decide (Check.classify csum (applyOk j) (recs j) = Check.Outcome.broken)) ∧
    (Check.jfsck csum applyOk recs maxtid df0).res.apply_error
      = (List.range' 1 maxtid).countP (fun j =>
          decide (Check.classify csum (applyOk j) (recs j) = Check.Outcome.apply_error)) ∧
    (Check.jfsck csum applyOk recs maxtid df0).res.reapplied
      = (List.range' 1 maxtid).countP (fun j =>
          decide (Check.classify csum (applyOk j) (recs j) = Check.Outcome.reapplied)) ∧
    i ∉ (Check.jfsck csum applyOk recs maxtid df0).applied := by
  have hmem : i ∈ List.range' 1 maxtid := List.mem_range'_1.mpr ⟨h1, by omega⟩
  obtain ⟨e1, e2, e3, e4, e5, e6, e7, e8⟩ :=
    jfsck_fold csum applyOk recs (List.range' 1 maxtid)
      { res := { total := 0, invalid := 0, in_progress := 0, broken := 0,
                 corrupt := 0, apply_error := 0, reapplied := 0 },
        dataFile := df0, applied := [] }
  rw [show Check.jfsck csum applyOk recs maxtid df0
    = (List.range' 1 maxtid).foldl (Check.jfsckStep csum applyOk recs)
        { res := { total := 0, invalid := 0, in_progress := 0, broken := 0,
                   corrupt := 0, apply_error := 0, reapplied := 0 },
          dataFile := df0, applied := [] } from rfl]
  refine ⟨?_, ?_, ?_, ?_, ?_, ?_, ?_, ?_, ?_⟩
  · rw [e1]
    simp [List.length_range']
  · rw [e5]
    simp
  · rw [e5]
    have hpos : 0 < (List.range' 1 maxtid).countP (fun j =>
        decide (Check.classify csum (applyOk j) (recs j) = Check.Outcome.corrupt)) :=
      List.countP_pos_iff.mpr ⟨i, hmem, by simp [hc]⟩
    omega
  · rw [e2]
    simp
  · rw [e3]
    simp
  · rw [e4]
    simp
  · rw [e6]
    simp
  · rw [e7]
    simp
  · intro habs
    rw [e8] at habs
    simp only [List.nil_append, List.mem_filter] at habs
    rw [hc] at habs
    exact absurd (of_decide_eq_true habs.2) (by simp)

/-- C5 witness: with a constant-zero checksum function, a record of 12
zero header bytes followed by the stored checksum `1` parses but fails
the checksum comparison; over `maxtid = 3` identical records, `jfsck`
counts `corrupt = 3 = total` and applies nothing. -/
theorem claimC5_wit :
    (1 : Nat) ≤ 2 ∧ (2 : Nat) ≤ 3 ∧
    Check.classify (fun _ => 0) true
      (Check.RecEntry.present (List.replicate 12 0 ++ [1, 0, 0, 0]))
      = Check.Outcome.corrupt ∧
    ((Check.jfsck (fun _ => 0) (fun _ => true)
        (fun _ => Check.RecEntry.present (List.replicate 12 0 ++ [1, 0, 0, 0]))
        3 [9, 9]).res.total = 3 ∧
     1 ≤ (Check.jfsck (fun _ => 0) (fun _ => true)
        (fun _ => Check.RecEntry.present (List.replicate 12 0 ++ [1, 0, 0, 0]))
        3 [9, 9]).res.corrupt ∧
     2 ∉ (Check.jfsck (fun _ => 0) (fun _ => true)
        (fun _ => Check.RecEntry.present (List.replicate 12 0 ++ [1, 0, 0, 0]))
        3 [9, 9]).applied) := by
  have h := claimC5 (fun _ => 0) (fun _ => true)
    (fun _ => Check.RecEntry.present (List.replicate 12 0 ++ [1, 0, 0, 0]))
    3 [9, 9] 2 (by decide) (by decide) (by decide)
  exact ⟨by decide, by decide, by decide, h.1, h.2.2.1, h.2.2.2.2.2.2.2.2⟩

/-- C9: on a successful `jwritev` of two iovecs of 3 and 2 bytes, the
commit succeeds with `rv = sum = 5`, but the file pointer advances by
the iovec count `2`, not by the total byte count `5`: the claim that
the pointer advances by the total number of bytes written is exactly
what the code fails to do (`lseek(fs->fd, count, SEEK_CUR)` at
`libjio.c:627`). -/
theorem claimC9 :
    (jwritev cleanEnv [[1, 2, 3], [4, 5]] stA).1 = 5 ∧
    (jwritev cleanEnv [[1, 2, 3], [4, 5]] stA).2.filePos = stA.filePos + 2 ∧
    (([[1, 2, 3], [4, 5]] : List (List Nat)).map List.length).sum = 5 ∧
    stA.filePos + 2 ≠ stA.filePos + 5 := by decide

end LibJio
